import Mathlib

/-!
Verification of the ops-myoffice client core: upload routing, MSAL cache
persistence, token acquisition, Graph transport (request, pagination,
chunked resumable upload).

Each definition is a shallow embedding of the corresponding TypeScript
function; external effects (filesystem, identity provider, HTTP fetch)
are passed in as explicit environments, and effect traces are returned
as lists of operation descriptors.
-/

namespace OpsMyOffice

/-! ## Upload size routing

Embeds the routing branch of `uploadFile` (src/tools/onedrive.ts) and
`uploadAndAttach` (src/tools/planner.ts):

    const MAX_SIMPLE_UPLOAD = 4 * 1024 * 1024;
    if (content.length <= MAX_SIMPLE_UPLOAD) { graphUpload(...) }
    else { graphUploadLarge(...) }
-/

/-- The simple/resumable threshold constant, 4 MiB, as declared at
src/tools/onedrive.ts:410 and src/tools/planner.ts:985. -/
def MAX_SIMPLE_UPLOAD : Nat := 4 * 1024 * 1024

/-- Which upload implementation a call site selects. -/
inductive UploadMethod where
  | simple
  | resumable
deriving DecidableEq, Repr

/-- Routing branch of `uploadFile` (src/tools/onedrive.ts:413):
`content.length <= MAX_SIMPLE_UPLOAD` selects `graphUpload`, otherwise
`graphUploadLarge`. -/
def uploadFile_route (contentLength : Nat) : UploadMethod :=
  if contentLength ≤ MAX_SIMPLE_UPLOAD then .simple else .resumable

/-- Routing branch of `uploadAndAttach` (src/tools/planner.ts:988), the
same comparison against the same constant. -/
def uploadAndAttach_route (contentLength : Nat) : UploadMethod :=
  if contentLength ≤ MAX_SIMPLE_UPLOAD then .simple else .resumable

/-- C1 counterexample: at exactly S = T = 4 MiB both call sites take the
simple upload path, while the claim requires the resumable path at
S = T (the code's comparison is `<=`, not `<`). -/
theorem c1_boundary_counterexample :
    MAX_SIMPLE_UPLOAD ≤ 4 * 1024 * 1024 ∧
    uploadFile_route (4 * 1024 * 1024) = UploadMethod.simple ∧
    uploadAndAttach_route (4 * 1024 * 1024) = UploadMethod.simple := by
  refine ⟨le_refl _, ?_, ?_⟩ <;> decide

/-- C1 amended: payloads of size at most 4 MiB (boundary included) are
routed to the single-shot simple upload and payloads strictly above
4 MiB to the resumable session upload, at both call sites. -/
theorem c1_upload_routing (S : Nat) :
    (S ≤ MAX_SIMPLE_UPLOAD →
      uploadFile_route S = UploadMethod.simple ∧
      uploadAndAttach_route S = UploadMethod.simple) ∧
    (MAX_SIMPLE_UPLOAD < S →
      uploadFile_route S = UploadMethod.resumable ∧
      uploadAndAttach_route S = UploadMethod.resumable) := by
  constructor
  · intro h
    simp [uploadFile_route, uploadAndAttach_route, if_pos h]
  · intro h
    simp [uploadFile_route, uploadAndAttach_route, Nat.not_le.mpr h]

theorem c1_upload_routing_witness :
    uploadFile_route 100 = UploadMethod.simple ∧
    uploadAndAttach_route (5 * 1024 * 1024) = UploadMethod.resumable :=
  ⟨((c1_upload_routing 100).1 (by decide)).1,
   ((c1_upload_routing (5 * 1024 * 1024)).2 (by decide)).2⟩

/-! ## Filesystem model for the MSAL cache plugin

The node `fs` primitives the plugin uses are modelled as an environment
`FsWorld` of possibly-failing operations (an `Except.error` models a
thrown exception), and each embedded function additionally returns the
trace of filesystem mutations it attempted, in order. The in-memory
MSAL token cache is modelled by its serialized string form:
`tokenCache.deserialize s` makes `s` the in-memory state and
`tokenCache.serialize()` reads it back. -/

/-- A filesystem mutation attempted by the cache plugin. -/
inductive FsOp where
  | mkdir (path : String)
  | writeFile (path : String) (data : String) (mode : Nat)
  | rename (fromPath toPath : String)
  | unlink (path : String)
deriving DecidableEq, Repr

/-- Environment of node `fs`/`path` primitives: results of the calls the
plugin may make. An `Except.error` result models the call throwing. -/
structure FsWorld where
  existsSync : String → Bool
  readFileSync : String → Except String String
  writeFileSync : String → String → Nat → Except String Unit
  mkdirSync : String → Except String Unit
  renameSync : String → String → Except String Unit
  unlinkSync : String → Except String Unit
  dirname : String → String

/-- Does the operation write file contents directly at `target`? -/
def FsOp.writesDirectlyTo (target : String) : FsOp → Bool
  | .writeFile p _ _ => p == target
  | _ => false

/-- Is the operation a rename? -/
def FsOp.isRenameOp : FsOp → Bool
  | .rename _ _ => true
  | _ => false

/-- The atomic-persistence discipline the spec describes for a target
path: no filesystem operation ever writes file contents directly at the
target, and some rename occurs (the new contents arriving at the target
only via a rename). -/
def atomicPersist (target : String) (ops : List FsOp) : Prop :=
  (∀ op ∈ ops, op.writesDirectlyTo target = false) ∧
  (∃ op ∈ ops, op.isRenameOp = true)

instance (target : String) (ops : List FsOp) : Decidable (atomicPersist target ops) := by
  unfold atomicPersist
  exact instDecidableAnd

/-! ### FileCachePlugin, revision at src/auth/cache-plugin.ts

`beforeCacheAccess` loads the cache file if present and non-blank;
`afterCacheAccess` persists the serialized cache with a single direct
`writeFileSync(cachePath, serialized, { mode: 0o600 })`. Both wrap
their bodies in try/catch that logs and swallows any error. -/

namespace CachePluginV1

/-- Body of the `try` block of `beforeCacheAccess`
(src/auth/cache-plugin.ts:21-27): returns the new in-memory cache
state, propagating a thrown read error. A blank or absent file leaves
the in-memory cache `mem` unchanged. The guard `cacheData &&
cacheData.trim()` is truthy exactly when the data has a non-whitespace
character (a JS string is falsy iff empty, and trimming leaves a
non-empty string iff some character is not whitespace). -/
def beforeCacheAccessBody (w : FsWorld) (cachePath : String) (mem : String) :
    Except String String :=
  if w.existsSync cachePath then
    match w.readFileSync cachePath with
    | .error e => .error e
    | .ok cacheData =>
        if cacheData.toList.any (fun c => !c.isWhitespace) then .ok cacheData
        else .ok mem
  else .ok mem

/-- Hook `beforeCacheAccess` (src/auth/cache-plugin.ts:20-31): the catch
clause logs the error and resolves, leaving the in-memory cache
unchanged. The result is the in-memory cache after the call; an
`Except.error` would model the returned promise rejecting. -/
def beforeCacheAccess (w : FsWorld) (cachePath : String) (mem : String) :
    Except String String :=
  match beforeCacheAccessBody w cachePath mem with
  | .ok m => .ok m
  | .error _ => .ok mem

/-- Body of the `try` block of `afterCacheAccess`
(src/auth/cache-plugin.ts:39-45): ensure the directory exists, then
write the serialized cache directly to `cachePath` with mode `0o600`.
Returns the outcome together with the trace of attempted mutations. -/
def afterCacheAccessBody (w : FsWorld) (cachePath : String) (serialized : String) :
    Except String Unit × List FsOp :=
  let dir := w.dirname cachePath
  if w.existsSync dir then
    (w.writeFileSync cachePath serialized 0o600,
     [FsOp.writeFile cachePath serialized 0o600])
  else
    match w.mkdirSync dir with
    | .error e => (.error e, [FsOp.mkdir dir])
    | .ok _ =>
        (w.writeFileSync cachePath serialized 0o600,
         [FsOp.mkdir dir, FsOp.writeFile cachePath serialized 0o600])

/-- Hook `afterCacheAccess` (src/auth/cache-plugin.ts:37-50): runs the body
only when `cacheHasChanged`; the catch clause logs and swallows any
error, so the promise always resolves. -/
def afterCacheAccess (w : FsWorld) (cachePath : String) (cacheHasChanged : Bool)
    (serialized : String) : Except String Unit × List FsOp :=
  if cacheHasChanged then
    match afterCacheAccessBody w cachePath serialized with
    | (.ok _, ops) => (.ok (), ops)
    | (.error _, ops) => (.ok (), ops)
  else (.ok (), [])

end CachePluginV1

/-- A filesystem in which every operation succeeds and every directory
and file exists; used for concrete evaluations. -/
def happyFs : FsWorld where
  existsSync := fun _ => true
  readFileSync := fun _ => .ok ("")
  writeFileSync := fun _ _ _ => .ok ()
  mkdirSync := fun _ => .ok ()
  renameSync := fun _ _ => .ok ()
  unlinkSync := fun _ => .ok ()
  dirname := fun _ => "/home/user/.config/myoffice-mcp"

/-- A concrete cache file path for the concrete evaluations below. -/
def samplePath : String := "/home/user/.config/myoffice-mcp/msal-cache.json"

/-- A concrete serialized cache blob for the concrete evaluations. -/
def sampleData : String := "CACHE"

/-- A concrete in-memory cache state for the concrete evaluations. -/
def sampleMem : String := "MEM"

/-- C2 counterexample: with a fully healthy filesystem, a changed cache
is persisted by `afterCacheAccess` of src/auth/cache-plugin.ts through
one direct `writeFileSync` to the target path — no temporary file and
no rename — so this persistence is not atomic as the claim states. -/
theorem c2_direct_write_counterexample :
    CachePluginV1.afterCacheAccess happyFs
        samplePath true sampleData =
      (Except.ok (),
       [FsOp.writeFile samplePath sampleData 0o600]) ∧
    ¬ atomicPersist samplePath
        [FsOp.writeFile samplePath sampleData 0o600] := by
  constructor
  · rfl
  · decide

/-! ### FileCachePlugin, updated revision (src/unnamed/part_006)

This revision serializes concurrent writes through a chained promise
(`writeLock`) and persists atomically: write to `${cachePath}.tmp.${pid}`
with mode `0o600`, then `renameSync` over the target; on failure the
temp file is unlinked and the error swallowed. -/

namespace CachePlugin006

/-- The temporary path `${this.cachePath}.tmp.${process.pid}` used by
`writeCache` (src/unnamed/part_006:56). -/
def tmpPath (cachePath : String) (pid : Nat) : String :=
  cachePath ++ ".tmp." ++ toString pid

/-- Body of the `try` block of `writeCache` (src/unnamed/part_006:47-58):
ensure the directory, write the serialized cache to the temp path with
mode `0o600`, rename the temp path over the target. Returns the outcome
and the trace of attempted mutations. -/
def writeCacheBody (w : FsWorld) (cachePath : String) (pid : Nat) (serialized : String) :
    Except String Unit × List FsOp :=
  let dir := w.dirname cachePath
  let tp := tmpPath cachePath pid
  let mkOps : List FsOp := if w.existsSync dir then [] else [FsOp.mkdir dir]
  let mkRes : Except String Unit := if w.existsSync dir then .ok () else w.mkdirSync dir
  match mkRes with
  | .error e => (.error e, mkOps)
  | .ok _ =>
      match w.writeFileSync tp serialized 0o600 with
      | .error e => (.error e, mkOps ++ [FsOp.writeFile tp serialized 0o600])
      | .ok _ =>
          (w.renameSync tp cachePath,
           mkOps ++ [FsOp.writeFile tp serialized 0o600, FsOp.rename tp cachePath])

/-- Method `writeCache` (src/unnamed/part_006:46-71): the catch clause logs the
error, attempts to unlink a leftover temp file (ignoring unlink errors),
and resolves, so the promise always resolves. -/
def writeCache (w : FsWorld) (cachePath : String) (pid : Nat) (serialized : String) :
    Except String Unit × List FsOp :=
  match writeCacheBody w cachePath pid serialized with
  | (.ok _, ops) => (.ok (), ops)
  | (.error _, ops) =>
      let tp := tmpPath cachePath pid
      if w.existsSync tp then (.ok (), ops ++ [FsOp.unlink tp]) else (.ok (), ops)

/-- Hook `afterCacheAccess` (src/unnamed/part_006:38-44): when the cache has
changed, queue `writeCache` on the write lock and await it. With the
per-process queue serializing writes, each queued write is exactly one
`writeCache` run. -/
def afterCacheAccess (w : FsWorld) (cachePath : String) (pid : Nat)
    (cacheHasChanged : Bool) (serialized : String) : Except String Unit × List FsOp :=
  if cacheHasChanged then writeCache w cachePath pid serialized
  else (.ok (), [])

theorem tmpPath_ne (cachePath : String) (pid : Nat) :
    tmpPath cachePath pid ≠ cachePath := by
  intro h
  have hlen := congrArg String.length h
  rw [tmpPath, String.length_append, String.length_append] at hlen
  have h5 : (".tmp." : String).length = 5 := rfl
  omega


theorem writeCache_resolves (w : FsWorld) (cachePath : String) (pid : Nat)
    (serialized : String) :
    (writeCache w cachePath pid serialized).1 = Except.ok () := by
  unfold writeCache
  rcases h : writeCacheBody w cachePath pid serialized with ⟨e | u, ops⟩
  · dsimp only []
    split <;> rfl
  · rfl

theorem writeCacheBody_ops (w : FsWorld) (cachePath : String) (pid : Nat)
    (serialized : String) :
    ∀ op ∈ (writeCacheBody w cachePath pid serialized).2,
      op = FsOp.mkdir (w.dirname cachePath) ∨
      op = FsOp.writeFile (tmpPath cachePath pid) serialized 0o600 ∨
      op = FsOp.rename (tmpPath cachePath pid) cachePath := by
  intro op hop
  unfold writeCacheBody at hop
  by_cases hdir : w.existsSync (w.dirname cachePath) = true <;>
    simp only [hdir, if_true, if_false, Bool.false_eq_true, reduceIte] at hop
  · rcases hw : w.writeFileSync (tmpPath cachePath pid) serialized 0o600 with e | a <;>
      rw [hw] at hop <;>
      simp only [List.nil_append, List.mem_cons, List.mem_singleton,
        List.not_mem_nil, or_false] at hop
    · tauto
    · tauto
  · rcases hm : w.mkdirSync (w.dirname cachePath) with e | a <;> rw [hm] at hop
    · simp only [List.mem_singleton] at hop
      tauto
    · rcases hw : w.writeFileSync (tmpPath cachePath pid) serialized 0o600 with e | a <;>
        rw [hw] at hop <;>
        simp only [List.cons_append, List.nil_append, List.mem_cons,
          List.mem_singleton, List.not_mem_nil, or_false] at hop
      · tauto
      · tauto

theorem writeCache_ops (w : FsWorld) (cachePath : String) (pid : Nat)
    (serialized : String) :
    ∀ op ∈ (writeCache w cachePath pid serialized).2,
      op = FsOp.mkdir (w.dirname cachePath) ∨
      op = FsOp.writeFile (tmpPath cachePath pid) serialized 0o600 ∨
      op = FsOp.rename (tmpPath cachePath pid) cachePath ∨
      op = FsOp.unlink (tmpPath cachePath pid) := by
  intro op hop
  have hb := writeCacheBody_ops w cachePath pid serialized op
  unfold writeCache at hop
  rcases h : writeCacheBody w cachePath pid serialized with ⟨e | u, ops⟩ <;>
    rw [h] at hop hb <;> dsimp only [] at hop hb
  · split at hop <;> simp only [List.mem_append, List.mem_singleton] at hop
    · rcases hop with hop | hop
      · rcases hb hop with h1 | h1 | h1 <;> tauto
      · tauto
    · rcases hb hop with h1 | h1 | h1 <;> tauto
  · rcases hb hop with h1 | h1 | h1 <;> tauto

theorem writeCache_no_direct_write (w : FsWorld) (cachePath : String) (pid : Nat)
    (serialized : String) :
    ∀ op ∈ (writeCache w cachePath pid serialized).2,
      op.writesDirectlyTo cachePath = false := by
  intro op hop
  rcases writeCache_ops w cachePath pid serialized op hop with h | h | h | h <;>
    subst h <;> simp [FsOp.writesDirectlyTo]
  exact tmpPath_ne cachePath pid

theorem writeCache_writeFile_shape (w : FsWorld) (cachePath : String) (pid : Nat)
    (serialized : String) :
    ∀ p d m, FsOp.writeFile p d m ∈ (writeCache w cachePath pid serialized).2 →
      p = tmpPath cachePath pid ∧ d = serialized ∧ m = 0o600 := by
  intro p d m hop
  rcases writeCache_ops w cachePath pid serialized _ hop with h | h | h | h <;>
    simp_all

theorem writeCache_success (w : FsWorld) (cachePath : String) (pid : Nat)
    (serialized : String)
    (hdir : w.existsSync (w.dirname cachePath) = true)
    (hwr : w.writeFileSync (tmpPath cachePath pid) serialized 0o600 = Except.ok ())
    (hrn : w.renameSync (tmpPath cachePath pid) cachePath = Except.ok ()) :
    writeCache w cachePath pid serialized =
      (Except.ok (),
       [FsOp.writeFile (tmpPath cachePath pid) serialized 0o600,
        FsOp.rename (tmpPath cachePath pid) cachePath]) := by
  unfold writeCache writeCacheBody
  simp [hdir, hwr, hrn]

end CachePlugin006

/-- C2 amended: the updated cache plugin revision (src/unnamed/part_006)
persists atomically — every file write in its trace targets the
temporary path `cachePath ++ ".tmp." ++ pid` (never the target) with
owner-read/write-only mode `0o600`, and when nothing fails the trace is
exactly the temp write followed by the rename over the target — while
the revision at src/auth/cache-plugin.ts persists non-atomically by
writing the target path directly (see the counterexample). -/
theorem c2_atomic_persist_006 (w : FsWorld) (cachePath : String) (pid : Nat)
    (cacheHasChanged : Bool) (serialized : String) :
    (∀ op ∈ (CachePlugin006.afterCacheAccess w cachePath pid cacheHasChanged serialized).2,
        op.writesDirectlyTo cachePath = false) ∧
    (∀ p d m, FsOp.writeFile p d m ∈
          (CachePlugin006.afterCacheAccess w cachePath pid cacheHasChanged serialized).2 →
        p = CachePlugin006.tmpPath cachePath pid ∧ d = serialized ∧ m = 0o600) ∧
    (cacheHasChanged = true →
      w.existsSync (w.dirname cachePath) = true →
      w.writeFileSync (CachePlugin006.tmpPath cachePath pid) serialized 0o600 = Except.ok () →
      w.renameSync (CachePlugin006.tmpPath cachePath pid) cachePath = Except.ok () →
      CachePlugin006.afterCacheAccess w cachePath pid cacheHasChanged serialized =
        (Except.ok (),
         [FsOp.writeFile (CachePlugin006.tmpPath cachePath pid) serialized 0o600,
          FsOp.rename (CachePlugin006.tmpPath cachePath pid) cachePath]) ∧
      atomicPersist cachePath
        (CachePlugin006.afterCacheAccess w cachePath pid cacheHasChanged serialized).2) := by
  by_cases hch : cacheHasChanged = true
  · subst hch
    rw [CachePlugin006.afterCacheAccess, if_pos rfl]
    refine ⟨CachePlugin006.writeCache_no_direct_write w cachePath pid serialized,
      CachePlugin006.writeCache_writeFile_shape w cachePath pid serialized,
      ?_⟩
    intro _ hdir hwr hrn
    rw [CachePlugin006.writeCache_success w cachePath pid serialized hdir hwr hrn]
    refine ⟨rfl, ?_, ?_⟩
    · intro op hop
      simp only [List.mem_cons, List.not_mem_nil, or_false] at hop
      rcases hop with h | h <;> subst h <;> simp [FsOp.writesDirectlyTo]
      exact CachePlugin006.tmpPath_ne cachePath pid
    · exact ⟨FsOp.rename (CachePlugin006.tmpPath cachePath pid) cachePath,
        by simp, rfl⟩
  · simp only [Bool.not_eq_true] at hch
    subst hch
    rw [CachePlugin006.afterCacheAccess]
    refine ⟨?_, ?_, ?_⟩
    · intro op hop
      simp at hop
    · intro p d m hop
      simp at hop
    · intro h
      exact absurd h (by simp)

theorem c2_atomic_persist_006_witness :
    CachePlugin006.afterCacheAccess happyFs
        samplePath 4242 true sampleData =
      (Except.ok (),
       [FsOp.writeFile (CachePlugin006.tmpPath
            samplePath 4242) sampleData 0o600,
        FsOp.rename (CachePlugin006.tmpPath
            samplePath 4242)
          samplePath]) ∧
    atomicPersist samplePath
      (CachePlugin006.afterCacheAccess happyFs
        samplePath 4242 true sampleData).2 :=
  ((c2_atomic_persist_006 happyFs samplePath
      4242 true sampleData).2.2 rfl rfl rfl rfl)

/-- C10: neither cache hook ever rejects. `beforeCacheAccess` always
resolves, and resolves with the in-memory cache unchanged when the file
is missing, unreadable (read throws), or blank after trimming (which
covers empty); `afterCacheAccess` always resolves even when the disk
write fails, so a persistence failure never fails the surrounding token
operation. -/
theorem c10_cache_hooks_never_reject (w : FsWorld) (cachePath mem : String)
    (cacheHasChanged : Bool) :
    (∃ m, CachePluginV1.beforeCacheAccess w cachePath mem = Except.ok m) ∧
    (CachePluginV1.afterCacheAccess w cachePath cacheHasChanged mem).1 = Except.ok () ∧
    (w.existsSync cachePath = false →
      CachePluginV1.beforeCacheAccess w cachePath mem = Except.ok mem) ∧
    (∀ e, w.readFileSync cachePath = Except.error e →
      CachePluginV1.beforeCacheAccess w cachePath mem = Except.ok mem) ∧
    (∀ d, w.readFileSync cachePath = Except.ok d →
      d.toList.all Char.isWhitespace = true →
      CachePluginV1.beforeCacheAccess w cachePath mem = Except.ok mem) := by
  refine ⟨?_, ?_, ?_, ?_, ?_⟩
  · unfold CachePluginV1.beforeCacheAccess
    rcases h : CachePluginV1.beforeCacheAccessBody w cachePath mem with e | m
    · exact ⟨mem, rfl⟩
    · exact ⟨m, rfl⟩
  · unfold CachePluginV1.afterCacheAccess
    split
    · rcases h : CachePluginV1.afterCacheAccessBody w cachePath mem with ⟨e | u, ops⟩ <;> rfl
    · rfl
  · intro hex
    unfold CachePluginV1.beforeCacheAccess CachePluginV1.beforeCacheAccessBody
    simp [hex]
  · intro e hrd
    unfold CachePluginV1.beforeCacheAccess CachePluginV1.beforeCacheAccessBody
    by_cases hex : w.existsSync cachePath = true <;> simp [hex, hrd]
  · intro d hrd htrim
    unfold CachePluginV1.beforeCacheAccess CachePluginV1.beforeCacheAccessBody
    have hnone : ¬ ∃ c ∈ d.data, c.isWhitespace = false := by
      rintro ⟨c, hc, hw⟩
      have hall := List.all_eq_true.mp htrim c hc
      rw [hw] at hall
      exact Bool.false_ne_true hall
    by_cases hex : w.existsSync cachePath = true <;> simp [hex, hrd, hnone]

theorem c10_cache_hooks_never_reject_witness :
    (∃ m, CachePluginV1.beforeCacheAccess happyFs
        samplePath sampleMem = Except.ok m) ∧
    (CachePluginV1.afterCacheAccess happyFs
        samplePath true sampleMem).1 = Except.ok () ∧
    CachePluginV1.beforeCacheAccess happyFs
        samplePath sampleMem = Except.ok sampleMem :=
  ⟨(c10_cache_hooks_never_reject happyFs
      samplePath sampleMem true).1,
   (c10_cache_hooks_never_reject happyFs
      samplePath sampleMem true).2.1,
   (c10_cache_hooks_never_reject happyFs
      samplePath sampleMem true).2.2.2.2 ("") rfl (by decide)⟩

/-! ## Credential manager (src/auth/token-manager.ts)

The MSAL library and configuration are modelled as an environment
`AuthEnv`: the dynamically evaluated `getAuthConfig()` result, the
outcome of reading the persisted account list from the MSAL cache
(`pca.getTokenCache().getAllAccounts()`, whose promise may in principle
reject), and the identity provider's response to a silent token request
(`pca.acquireTokenSilent`). Besides its result, `getAccessToken` is
given an explicit trace of the authentication-service interactions it
performs; `console.error` logging is not an interaction and is not
traced. -/

/-- An MSAL `AccountInfo` as used by token-manager: only the fields the
code reads are modelled. -/
structure AccountInfo where
  homeAccountId : String
  username : String
deriving DecidableEq, Repr

/-- An interaction with the identity provider / authorization service. -/
inductive AuthEvent where
  | silentTokenRequest (account : AccountInfo)
  | interactiveLogin
deriving DecidableEq, Repr

/-- Environment of the token manager. `clientId` is
`getAuthConfig().clientId` (the empty string when neither the env var
nor the stored config provides one, src/auth/config.ts `getClientId`);
`getAllAccounts` is the outcome of listing accounts in the MSAL cache;
`acquireTokenSilent` maps the chosen account to the provider's outcome:
an access token, or the message of the thrown error; `legacyTokenJson`
tells whether the legacy token.json migration hint exists (it only
affects logging). -/
structure AuthEnv where
  clientId : String
  getAllAccounts : Except String (List AccountInfo)
  acquireTokenSilent : AccountInfo → Except String String
  legacyTokenJson : Bool

/-- The error thrown by `getMsalInstance` (src/auth/token-manager.ts:19)
when no client ID is configured. -/
def noClientIdError : String :=
  "No client ID configured. Run: myoffice login --client-id <your-azure-app-client-id>\n" ++
  "Or set M365_CLIENT_ID environment variable."

/-- The error thrown at src/auth/token-manager.ts:52 when the MSAL cache
holds no account. -/
def notAuthenticatedError : String :=
  "Not authenticated. Please run \"npm run login\" in the myoffice-mcp directory."

/-- The error thrown at src/auth/token-manager.ts:79 when silent
acquisition fails, wrapping the provider's error message. -/
def tokenAcquisitionFailedError (errorMessage : String) : String :=
  "Token acquisition failed: " ++ errorMessage ++ ". " ++
  "Please re-authenticate by running 'npm run login' in the myoffice-mcp directory."

/-- Function `getAccessToken` (src/auth/token-manager.ts:39-84): construct the
MSAL instance (throws if no client ID), list cached accounts, fail with
the not-authenticated error when none exist, otherwise request a silent
token for the first account, wrapping a provider failure in the
token-acquisition-failed error. Returns the outcome and the trace of
identity-provider interactions. -/
def getAccessToken (env : AuthEnv) : Except String String × List AuthEvent :=
  if env.clientId = "" then (.error noClientIdError, [])
  else
    match env.getAllAccounts with
    | .error e => (.error e, [])
    | .ok accounts =>
        match accounts with
        | [] => (.error notAuthenticatedError, [])
        | account :: _ =>
            match env.acquireTokenSilent account with
            | .ok result => (.ok result, [.silentTokenRequest account])
            | .error e =>
                (.error (tokenAcquisitionFailedError e), [.silentTokenRequest account])

/-- The body shared by `isAuthenticated` and `getCurrentUser`
(src/auth/token-manager.ts:88-89 and 98-99): construct the MSAL
instance and list the cached accounts, either step may throw. -/
def accountsQuery (env : AuthEnv) : Except String (List AccountInfo) :=
  if env.clientId = "" then .error noClientIdError
  else env.getAllAccounts

/-- Function `isAuthenticated` (src/auth/token-manager.ts:86-94): `accounts.length
> 0`, with the catch clause turning any thrown error into `false`. An
`Except.error` result would model the promise rejecting. -/
def isAuthenticated (env : AuthEnv) : Except String Bool :=
  match accountsQuery env with
  | .ok accounts => .ok (decide (accounts.length > 0))
  | .error _ => .ok false

/-- Function `getCurrentUser` (src/auth/token-manager.ts:96-104):
`accounts[0]?.username || null`, with the catch clause turning any
thrown error into `null`; a missing first account or an empty username
string (falsy in JS) also yields `null`. -/
def getCurrentUser (env : AuthEnv) : Except String (Option String) :=
  match accountsQuery env with
  | .ok accounts =>
      .ok (match accounts with
        | [] => none
        | account :: _ => if account.username = "" then none else some account.username)
  | .error _ => .ok none

/-- C3: whenever the loaded cache holds no account (and a client ID is
configured, so the cache is reachable at all), `getAccessToken` fails
with the not-authenticated error and performs no identity-provider
interaction: no silent request and no interactive login. -/
theorem c3_no_account_fails_without_network (env : AuthEnv)
    (hcid : env.clientId ≠ "")
    (hacc : env.getAllAccounts = Except.ok []) :
    getAccessToken env = (Except.error notAuthenticatedError, []) := by
  unfold getAccessToken
  rw [if_neg hcid, hacc]

theorem c3_no_account_fails_without_network_witness :
    getAccessToken
        { clientId := "client-123",
          getAllAccounts := Except.ok [],
          acquireTokenSilent := fun _ => Except.error ("unreachable"),
          legacyTokenJson := false } =
      (Except.error notAuthenticatedError, []) :=
  c3_no_account_fails_without_network _ (by decide) rfl

/-- C4: when silent renewal is rejected by the provider,
`getAccessToken` fails with the token-acquisition-failed error, whose
message contains the provider's error message verbatim, and the trace
holds only the silent request — no interactive login is attempted. -/
theorem c4_silent_failure_reauth_required (env : AuthEnv)
    (account : AccountInfo) (rest : List AccountInfo) (e : String)
    (hcid : env.clientId ≠ "")
    (hacc : env.getAllAccounts = Except.ok (account :: rest))
    (hsil : env.acquireTokenSilent account = Except.error e) :
    getAccessToken env =
      (Except.error (tokenAcquisitionFailedError e), [AuthEvent.silentTokenRequest account]) ∧
    (∃ before after, tokenAcquisitionFailedError e = before ++ e ++ after) ∧
    AuthEvent.interactiveLogin ∉ (getAccessToken env).2 := by
  have hrun : getAccessToken env =
      (Except.error (tokenAcquisitionFailedError e), [AuthEvent.silentTokenRequest account]) := by
    unfold getAccessToken
    rw [if_neg hcid, hacc]
    dsimp only []
    rw [hsil]
  refine ⟨hrun, ?_, ?_⟩
  · refine ⟨"Token acquisition failed: ",
      ". " ++ "Please re-authenticate by running 'npm run login' in the myoffice-mcp directory.",
      ?_⟩
    unfold tokenAcquisitionFailedError
    rw [String.append_assoc, String.append_assoc]
  · rw [hrun]
    simp

theorem c4_silent_failure_reauth_required_witness :
    getAccessToken
        { clientId := "client-123",
          getAllAccounts := Except.ok [{ homeAccountId := "h1", username := "user@contoso.com" }],
          acquireTokenSilent := fun _ => Except.error ("invalid_grant: AADSTS70008"),
          legacyTokenJson := false } =
      (Except.error (tokenAcquisitionFailedError ("invalid_grant: AADSTS70008")),
       [AuthEvent.silentTokenRequest { homeAccountId := "h1", username := "user@contoso.com" }]) :=
  (c4_silent_failure_reauth_required _
    { homeAccountId := "h1", username := "user@contoso.com" } [] ("invalid_grant: AADSTS70008")
    (by decide) rfl rfl).1

/-- C9: `isAuthenticated` and `getCurrentUser` always resolve — for
every environment, including one whose MSAL-instance construction or
account listing throws — and when the underlying query throws they
resolve with `false` and `null`; in particular an unconfigured client ID
yields `false` and `null` rather than an exception. -/
theorem c9_query_functions_never_throw (env : AuthEnv) :
    (∃ b, isAuthenticated env = Except.ok b) ∧
    (∃ u, getCurrentUser env = Except.ok u) ∧
    (∀ e, accountsQuery env = Except.error e →
      isAuthenticated env = Except.ok false ∧ getCurrentUser env = Except.ok none) ∧
    (env.clientId = "" →
      isAuthenticated env = Except.ok false ∧ getCurrentUser env = Except.ok none) := by
  refine ⟨?_, ?_, ?_, ?_⟩
  · unfold isAuthenticated
    rcases accountsQuery env with e | accounts
    · exact ⟨false, rfl⟩
    · exact ⟨_, rfl⟩
  · unfold getCurrentUser
    rcases accountsQuery env with e | accounts
    · exact ⟨none, rfl⟩
    · exact ⟨_, rfl⟩
  · intro e he
    unfold isAuthenticated getCurrentUser
    rw [he]
    exact ⟨rfl, rfl⟩
  · intro hcid
    unfold isAuthenticated getCurrentUser accountsQuery
    rw [if_pos hcid]
    exact ⟨rfl, rfl⟩

theorem c9_query_functions_never_throw_witness :
    isAuthenticated
        { clientId := "",
          getAllAccounts := Except.error ("cache corrupt"),
          acquireTokenSilent := fun _ => Except.error ("x"),
          legacyTokenJson := true } = Except.ok false ∧
    getCurrentUser
        { clientId := "",
          getAllAccounts := Except.error ("cache corrupt"),
          acquireTokenSilent := fun _ => Except.error ("x"),
          legacyTokenJson := true } = Except.ok none :=
  (c9_query_functions_never_throw _).2.2.2 rfl

/-! ## Graph transport client

Two revisions of `graphRequest` exist in the repository: the one at
src/src/utils/graph-client.ts treats only HTTP 204 as an empty-body
success, while the revision in src/unnamed/part_004 (the one the upload
call sites link against, since it also exports `graphUpload` and
`graphUploadLarge`) treats both 204 and 202 so. Both are embedded. The
`fetch` call is modelled by handing the observed `HttpResponse` to the
function; token acquisition does not affect response handling. -/

/-- The Graph base URL constant of both graph-client revisions. -/
def GRAPH_BASE_URL : String := "https://graph.microsoft.com/v1.0"

/-- An HTTP response as `graphRequest` observes it: the status, the raw
body text, the structured error message extracted from the body when it
parses as JSON with a non-empty `error.message` (`none` otherwise, in
which case the raw text is used), and the outcome of `response.json()`
(`Except.error` models the parse throwing). -/
structure HttpResponse (T : Type) where
  status : Nat
  bodyText : String
  errorJsonMessage : Option String
  json : Except String T

/-- Property `response.ok` of the Fetch API: status in the inclusive range
200-299. -/
def respOk (status : Nat) : Bool := 200 ≤ status && status ≤ 299

/-- The error message `graphRequest` throws for a non-2xx response. -/
def graphApiError (status : Nat) (message : String) : String :=
  "Graph API error (" ++ toString status ++ "): " ++ message

namespace GraphClientV1

/-- Response handling of `graphRequest`
(src/src/utils/graph-client.ts:35-54): non-ok statuses raise the Graph
error; 204 returns the empty object without touching the body;
everything else is `response.json()`. The boolean records whether
`response.json()` was invoked; `Except.ok none` is the empty success
`{}`. -/
def graphRequest {T : Type} (response : HttpResponse T) :
    Except String (Option T) × Bool :=
  if !(respOk response.status) then
    (.error (graphApiError response.status
        (response.errorJsonMessage.getD response.bodyText)), false)
  else if response.status = 204 then (.ok none, false)
  else
    match response.json with
    | .ok v => (.ok (some v), true)
    | .error e => (.error e, true)

end GraphClientV1

namespace GraphClient

/-- Response handling of `graphRequest` (src/unnamed/part_004:227-246):
as in the earlier revision but with both 204 No Content and 202
Accepted returning the empty object without touching the body. -/
def graphRequest {T : Type} (response : HttpResponse T) :
    Except String (Option T) × Bool :=
  if !(respOk response.status) then
    (.error (graphApiError response.status
        (response.errorJsonMessage.getD response.bodyText)), false)
  else if response.status = 204 ∨ response.status = 202 then (.ok none, false)
  else
    match response.json with
    | .ok v => (.ok (some v), true)
    | .error e => (.error e, true)

end GraphClient

/-- C6 counterexample: the graph-client revision at
src/src/utils/graph-client.ts, given a 202 Accepted response, does not
return the empty success value — it invokes `response.json()` and
returns the parsed body, contradicting the claim for the 202 case. -/
theorem c6_v1_202_parses_body :
    GraphClientV1.graphRequest
        ({ status := 202, bodyText := "", errorJsonMessage := none,
           json := Except.ok ("PARSED") } : HttpResponse String) =
      (Except.ok (some ("PARSED")), true) ∧
    (Except.ok (some ("PARSED")), true) ≠
      ((Except.ok none : Except String (Option String)), false) := by
  exact ⟨rfl, by simp⟩

/-- C6 amended: the current graph-client revision
(src/unnamed/part_004) returns the empty success value without invoking
the body parser for both 204 and 202 responses; the earlier revision at
src/src/utils/graph-client.ts does so only for 204 (a 202 body is
parsed there, see the counterexample). -/
theorem c6_empty_body_success {T : Type} (r : HttpResponse T)
    (h : r.status = 204 ∨ r.status = 202) :
    GraphClient.graphRequest r = (Except.ok none, false) ∧
    (r.status = 204 → GraphClientV1.graphRequest r = (Except.ok none, false)) := by
  rcases r with ⟨status, bodyText, errorJsonMessage, json⟩
  dsimp only [] at h
  constructor
  · rcases h with h | h <;> subst h <;> rfl
  · intro h204
    dsimp only [] at h204
    subst h204
    rfl

theorem c6_empty_body_success_witness :
    GraphClient.graphRequest
        ({ status := 202, bodyText := "", errorJsonMessage := none,
           json := Except.error ("no body") } : HttpResponse String) =
      (Except.ok none, false) :=
  (c6_empty_body_success _ (Or.inr rfl)).1

/-! ### Pagination: `graphList` -/

/-- A Graph collection page: the `value` array (possibly absent) and
the `@odata.nextLink` continuation cursor (absent on the last page). -/
structure GraphPage (T : Type) where
  value : Option (List T)
  nextLink : Option String

/-- URL normalization inside the `graphList` loop
(src/src/utils/graph-client.ts:66-68): an absolute next link has the
Graph base URL stripped. -/
def normalizeLink (link : String) : String :=
  if link.startsWith "http" then link.replace GRAPH_BASE_URL "" else link

/-- The `while (nextLink && items.length < maxItems)` loop of
`graphList` (src/src/utils/graph-client.ts:65-77, identical at
src/unnamed/part_004:370-382). The server maps a requested URL to the
page it returns; `fuel` bounds how many pages can be followed (the
source loop is unbounded; every theorem below holds for every fuel).
Returns the accumulated items and the request trace: for each issued
page request, the number of items accumulated before it and the URL. -/
def graphListLoop {T : Type} (server : String → GraphPage T) (maxItems : Nat) :
    Nat → Option String → List T → List T × List (Nat × String)
  | 0, _, items => (items, [])
  | _ + 1, none, items => (items, [])
  | fuel + 1, some link, items =>
      if items.length < maxItems then
        let url := normalizeLink link
        let response := server url
        let next := graphListLoop server maxItems fuel response.nextLink
          (items ++ response.value.getD [])
        (next.1, (items.length, url) :: next.2)
      else (items, [])

/-- Function `graphList` (src/src/utils/graph-client.ts:57-80): walk pages
starting from `path` (with `maxItems` defaulting to 100 at the call
sites), then return `items.slice(0, maxItems)`. -/
def graphList {T : Type} (server : String → GraphPage T) (fuel : Nat)
    (path : String) (maxItems : Nat) : List T × List (Nat × String) :=
  let run := graphListLoop server maxItems fuel (some path) []
  (run.1.take maxItems, run.2)

theorem graphListLoop_requests_bounded {T : Type} (server : String → GraphPage T)
    (maxItems : Nat) :
    ∀ fuel nextLink items,
      ∀ p ∈ (graphListLoop server maxItems fuel nextLink items).2, p.1 < maxItems := by
  intro fuel
  induction fuel with
  | zero =>
      intro nextLink items p hp
      simp [graphListLoop] at hp
  | succ n ih =>
      intro nextLink items p hp
      cases nextLink with
      | none => simp [graphListLoop] at hp
      | some link =>
          rw [graphListLoop] at hp
          by_cases h : items.length < maxItems
          · rw [if_pos h] at hp
            rcases List.mem_cons.mp hp with hhead | htail
            · rw [hhead]
              exact h
            · exact ih _ _ p htail
          · rw [if_neg h] at hp
            simp at hp

/-- C5: for every server page sequence (any page sizes, any cursors),
every fuel, path and bound, `graphList` returns at most `maxItems`
items, and every page request it issues is made while the accumulated
item count is still below the bound — so the cursor is abandoned as
soon as the bound is met, even mid-page, and an overshooting final page
is truncated by the final `slice`. -/
theorem c5_list_bounded {T : Type} (server : String → GraphPage T) (fuel : Nat)
    (path : String) (maxItems : Nat) :
    (graphList server fuel path maxItems).1.length ≤ maxItems ∧
    ∀ p ∈ (graphList server fuel path maxItems).2, p.1 < maxItems := by
  constructor
  · unfold graphList
    simp
  · intro p hp
    exact graphListLoop_requests_bounded server maxItems fuel (some path) [] p hp

theorem c5_list_bounded_witness :
    (graphList (fun _ => { value := some ["a", "b"], nextLink := some ("/next") })
        10 "/me/messages" 3).1.length ≤ 3 :=
  (c5_list_bounded (fun _ => { value := some ["a", "b"], nextLink := some ("/next") })
    10 "/me/messages" 3).1

/-! ### Pagination determinism: `graphList` holds no state across calls -/

/-- A fixture server with internal state `σ` (such as a call counter):
serving a request returns a page and an updated state. -/
def StatefulServer (σ T : Type) : Type :=
  σ → String → GraphPage T × σ

/-- The `graphList` page walk against a stateful fixture server,
threading the server state through the successive page requests. As in
the source, `items` and `nextLink` are locals of a single invocation;
the only state surviving an invocation is the server's. -/
def graphListLoopSt {σ T : Type} (server : StatefulServer σ T) (maxItems : Nat) :
    Nat → Option String → List T → σ → List T × σ
  | 0, _, items, s => (items, s)
  | _ + 1, none, items, s => (items, s)
  | fuel + 1, some link, items, s =>
      if items.length < maxItems then
        let url := normalizeLink link
        let rs := server s url
        graphListLoopSt server maxItems fuel rs.1.nextLink
          (items ++ rs.1.value.getD []) rs.2
      else (items, s)

/-- Function `graphList` against a stateful fixture server: the item list
returned and the server state left behind. -/
def graphListSt {σ T : Type} (server : StatefulServer σ T) (fuel : Nat)
    (path : String) (maxItems : Nat) (s : σ) : List T × σ :=
  let run := graphListLoopSt server maxItems fuel (some path) [] s
  (run.1.take maxItems, run.2)

/-- A fixture server is deterministic when the page served depends only
on the requested URL, never on its internal state. -/
def DeterministicServer {σ T : Type} (server : StatefulServer σ T) : Prop :=
  ∀ s s' link, (server s link).1 = (server s' link).1

theorem graphListLoopSt_state_independent {σ T : Type}
    (server : StatefulServer σ T) (maxItems : Nat)
    (hdet : DeterministicServer server) :
    ∀ fuel nextLink items s s',
      (graphListLoopSt server maxItems fuel nextLink items s).1 =
      (graphListLoopSt server maxItems fuel nextLink items s').1 := by
  intro fuel
  induction fuel with
  | zero => intro nextLink items s s'; rfl
  | succ n ih =>
      intro nextLink items s s'
      cases nextLink with
      | none => rfl
      | some link =>
          rw [graphListLoopSt, graphListLoopSt]
          by_cases h : items.length < maxItems
          · rw [if_pos h, if_pos h]
            have hpage := hdet s s' (normalizeLink link)
            dsimp only []
            rw [hpage]
            exact ih _ _ _ _
          · rw [if_neg h, if_neg h]

/-- C8: against the same deterministic fixture server, a second
`graphList` call with the same path and bound — starting from whatever
server state the first call left behind — returns an item-for-item
identical sequence: each call starts a fresh page walk and no mutable
pagination state persists between calls. -/
theorem c8_list_deterministic {σ T : Type} (server : StatefulServer σ T)
    (hdet : DeterministicServer server) (fuel : Nat) (path : String)
    (maxItems : Nat) (s₀ : σ) :
    (graphListSt server fuel path maxItems
        (graphListSt server fuel path maxItems s₀).2).1 =
      (graphListSt server fuel path maxItems s₀).1 := by
  unfold graphListSt
  have h := graphListLoopSt_state_independent server maxItems hdet fuel
    (some path) []
    (graphListLoopSt server maxItems fuel (some path) [] s₀).2 s₀
  simp only []
  rw [h]

/-- A concrete deterministic fixture: always serves a one-item page
with no continuation, while counting the calls it receives. -/
def countingFixture : StatefulServer Nat String :=
  fun s _ => ({ value := some ["item"], nextLink := none }, s + 1)

theorem c8_list_deterministic_witness :
    (graphListSt countingFixture 5 "/me/messages" 3
        (graphListSt countingFixture 5 "/me/messages" 3 0).2).1 =
      (graphListSt countingFixture 5 "/me/messages" 3 0).1 :=
  c8_list_deterministic countingFixture (fun _ _ _ => rfl) 5 "/me/messages" 3 0

/-! ### Resumable upload: `graphUploadLarge` (src/unnamed/part_004:293-360)

The loop `while (uploadedBytes < fileSize)` slices
`[uploadedBytes, chunkEnd)` with
`chunkEnd = Math.min(uploadedBytes + CHUNK_SIZE, fileSize)`, PUTs it to
the session URL with header
`Content-Range: bytes uploadedBytes-(chunkEnd - 1)/fileSize`, and
advances `uploadedBytes` to `chunkEnd`. The embedding records the
sequence of chunk PUTs. -/

/-- The fixed chunk size of `graphUploadLarge`
(src/unnamed/part_004:295): `320 * 1024 * 10`, 3.2 MB, a multiple of
the required 320 KiB alignment. -/
def CHUNK_SIZE : Nat := 320 * 1024 * 10

/-- One chunk PUT of the upload loop, described by the byte offsets its
`Content-Range` header carries: `bytes start-stop/total`. -/
structure ChunkPut where
  start : Nat
  stop : Nat
  total : Nat
deriving DecidableEq, Repr

/-- The `Content-Range` header of a chunk PUT
(src/unnamed/part_004:337). -/
def contentRange (c : ChunkPut) : String :=
  "bytes " ++ toString c.start ++ "-" ++ toString c.stop ++ "/" ++ toString c.total

/-- The chunk loop of `graphUploadLarge` (src/unnamed/part_004:329-357),
started at a given `uploadedBytes` (the source starts it at 0): the
chunk PUTs issued, in order. -/
def uploadChunkLoop (fileSize : Nat) (uploadedBytes : Nat) : List ChunkPut :=
  if _h : uploadedBytes < fileSize then
    { start := uploadedBytes,
      stop := min (uploadedBytes + CHUNK_SIZE) fileSize - 1,
      total := fileSize } ::
      uploadChunkLoop fileSize (min (uploadedBytes + CHUNK_SIZE) fileSize)
  else []
termination_by fileSize - uploadedBytes
decreasing_by
  have hc : 0 < CHUNK_SIZE := by decide
  omega

/-- All chunk PUTs issued by `graphUploadLarge` for a payload of
`fileSize` bytes. -/
def graphUploadLarge_chunks (fileSize : Nat) : List ChunkPut :=
  uploadChunkLoop fileSize 0

theorem uploadChunkLoop_eq_nil (N u : Nat) (h : ¬ u < N) :
    uploadChunkLoop N u = [] := by
  rw [uploadChunkLoop, dif_neg h]

theorem uploadChunkLoop_eq_cons (N u : Nat) (h : u < N) :
    uploadChunkLoop N u =
      { start := u, stop := min (u + CHUNK_SIZE) N - 1, total := N } ::
        uploadChunkLoop N (min (u + CHUNK_SIZE) N) := by
  rw [uploadChunkLoop, dif_pos h]

theorem uploadChunkLoop_spec (N : Nat) :
    ∀ k u, N - u ≤ k → u < N →
      (uploadChunkLoop N u).length = (N - u + CHUNK_SIZE - 1) / CHUNK_SIZE ∧
      List.Chain' (fun a b => a.start < b.start) (uploadChunkLoop N u) ∧
      List.Chain' (fun a b => a.stop < b.stop) (uploadChunkLoop N u) ∧
      (∀ c ∈ uploadChunkLoop N u,
        c.total = N ∧ u ≤ c.start ∧ c.start ≤ c.stop ∧ c.stop < N) ∧
      (∃ l, (uploadChunkLoop N u).getLast? = some l ∧ l.stop = N - 1) := by
  have hC : CHUNK_SIZE = 3276800 := rfl
  intro k
  induction k with
  | zero =>
      intro u hk hu
      omega
  | succ n ih =>
      intro u hk hu
      rw [uploadChunkLoop_eq_cons N u hu]
      by_cases hend : min (u + CHUNK_SIZE) N < N
      · -- more chunks follow
        have hrec := ih (min (u + CHUNK_SIZE) N) (by omega) hend
        obtain ⟨hlen, hchs, hcht, helts, l, hlast, hstop⟩ := hrec
        obtain ⟨tail, htail⟩ :
            ∃ tail, uploadChunkLoop N (min (u + CHUNK_SIZE) N) =
              { start := min (u + CHUNK_SIZE) N,
                stop := min (min (u + CHUNK_SIZE) N + CHUNK_SIZE) N - 1,
                total := N } :: tail :=
          ⟨_, uploadChunkLoop_eq_cons N _ hend⟩
        refine ⟨?_, ?_, ?_, ?_, ?_⟩
        · rw [List.length_cons, hlen]
          simp only [hC]
          omega
        · rw [htail] at hchs ⊢
          refine List.chain'_cons.mpr ⟨?_, hchs⟩
          dsimp only []
          omega
        · rw [htail] at hcht ⊢
          refine List.chain'_cons.mpr ⟨?_, hcht⟩
          dsimp only []
          omega
        · intro c hc
          rcases List.mem_cons.mp hc with hhd | htl
          · subst hhd
            refine ⟨rfl, le_refl u, ?_, ?_⟩ <;> dsimp only [] <;> omega
          · obtain ⟨ht, hs, hss, hsn⟩ := helts c htl
            exact ⟨ht, by omega, hss, hsn⟩
        · refine ⟨l, ?_, hstop⟩
          rw [htail] at hlast ⊢
          rw [List.getLast?_cons_cons]
          exact hlast
      · -- final chunk: min (u + CHUNK_SIZE) N = N
        have heq : min (u + CHUNK_SIZE) N = N := by omega
        rw [heq, uploadChunkLoop_eq_nil N N (by omega)]
        refine ⟨?_, ?_, ?_, ?_, ?_⟩
        · rw [List.length_cons, List.length_nil]
          simp only [hC]
          omega
        · exact List.chain'_singleton _
        · exact List.chain'_singleton _
        · intro c hc
          rcases List.mem_cons.mp hc with hhd | htl
          · subst hhd
            refine ⟨rfl, le_refl u, ?_, ?_⟩ <;> dsimp only [] <;> omega
          · simp at htl
        · exact ⟨_, rfl, rfl⟩

/-- C7: a resumable upload of `N >= 1` bytes issues exactly
`ceil(N / CHUNK_SIZE)` chunk PUTs, their start offsets strictly
increasing, their `Content-Range` end offsets strictly increasing, each
header of the form `bytes start-stop/N`, the final chunk ending at
`N - 1`; and the chunk size is a multiple of the 320 KiB alignment. -/
theorem c7_resumable_chunk_puts (N : Nat) (h : 1 ≤ N) :
    CHUNK_SIZE % (320 * 1024) = 0 ∧
    (graphUploadLarge_chunks N).length = (N + CHUNK_SIZE - 1) / CHUNK_SIZE ∧
    List.Chain' (fun a b => a.start < b.start) (graphUploadLarge_chunks N) ∧
    List.Chain' (fun a b => a.stop < b.stop) (graphUploadLarge_chunks N) ∧
    (∀ c ∈ graphUploadLarge_chunks N,
      contentRange c =
        "bytes " ++ toString c.start ++ "-" ++ toString c.stop ++ "/" ++ toString N ∧
      c.stop < N) ∧
    (∃ l, (graphUploadLarge_chunks N).getLast? = some l ∧ l.stop = N - 1) := by
  obtain ⟨hlen, hchs, hcht, helts, hlast⟩ :=
    uploadChunkLoop_spec N N 0 (by omega) (by omega)
  refine ⟨by decide, ?_, hchs, hcht, ?_, hlast⟩
  · rw [graphUploadLarge_chunks, hlen, Nat.sub_zero]
  · intro c hc
    obtain ⟨ht, _, _, hsn⟩ := helts c hc
    refine ⟨?_, hsn⟩
    rw [contentRange, ht]

theorem c7_resumable_chunk_puts_witness :
    1 ≤ 1 ∧
    ((graphUploadLarge_chunks 1).length = (1 + CHUNK_SIZE - 1) / CHUNK_SIZE ∧
      ∃ l, (graphUploadLarge_chunks 1).getLast? = some l ∧ l.stop = 0) :=
  ⟨by decide,
   (c7_resumable_chunk_puts 1 (by decide)).2.1,
   (c7_resumable_chunk_puts 1 (by decide)).2.2.2.2.2⟩

end OpsMyOffice
